import Mathlib

/-!
Verification of the simple-code-agent repository: a shallow embedding of
the sandboxed code-execution tools (`src/tools/code_execution_tool.py`,
`src/tools/code_execution.py`) and the streamed-event classifier loop of
`run_agent` (`src/agent.py`), together with theorems settling the
specification's claims about them.
-/

namespace SimpleCodeAgent

/-- JSON-typed values, as they appear in the dictionaries the Python tools
return (booleans, strings, integers, and `None`). -/
inductive JVal where
  | jbool (b : Bool)
  | jstr (s : String)
  | jint (n : Int)
  | jnull
deriving DecidableEq, Repr

/-- A Python dictionary literal with string keys, in the order the source
writes its entries. -/
abbrev JDict := List (String × JVal)

/-- Field access on a returned dictionary: the value stored under key `k`,
or `none` when the dictionary has no such key. -/
def getField (d : JDict) (k : String) : Option JVal :=
  match d with
  | [] => none
  | (k2, v) :: rest => if k2 = k then some v else getField rest k

/-- Embeds an optional Python string (`str | None`) as a JSON value. -/
def optStr : Option String → JVal
  | some s => .jstr s
  | none => .jnull

/-- The dictionary has key `k` and its value is a boolean. -/
def isBoolField (d : JDict) (k : String) : Bool :=
  match getField d k with
  | some (.jbool _) => true
  | _ => false

/-- The dictionary has key `k` and its value is an integer. -/
def isIntField (d : JDict) (k : String) : Bool :=
  match getField d k with
  | some (.jint _) => true
  | _ => false

/-- The dictionary has key `k` and its value is a string or `None`. -/
def isStrOrNullField (d : JDict) (k : String) : Bool :=
  match getField d k with
  | some (.jstr _) => true
  | some .jnull => true
  | _ => false

/-- The object returned by `session.run(code)` / `session.execute_command(cmd)`
of the external `llm_sandbox` library: exit code plus captured streams. -/
structure RunOutput where
  exit_code : Int
  stdout : Option String
  stderr : Option String
deriving DecidableEq, Repr

/-- Outcome of the `try`-block body wrapping a sandbox session call: either
the call returns a `RunOutput`, or some exception whose message is `e` is
raised anywhere inside the block (acquiring the pooled session included). -/
inductive SessionOutcome where
  | ok (r : RunOutput)
  | exn (e : String)
deriving DecidableEq, Repr

/-- `true` exactly when the sandbox call completed and its exit code was `0`.
On the exception path no exit code exists; the code treats that path as a
failure (`code_execution_tool.py` records `-1` there), so it counts as
nonzero. -/
def runExitZero : SessionOutcome → Bool
  | .ok r => r.exit_code == 0
  | .exn _ => false

namespace CodeExecutionTool

/-- The inner `_run` of `execute_python_code` in
`src/tools/code_execution_tool.py` (lines 57-76). `run` abstracts the
sandbox session: `run code` is the outcome of the `with SandboxSession(...)`
block applied to `session.run(code)`. The returned dictionary lists its
fields in source order. -/
def _run (run : String → SessionOutcome) (code : String) : JDict :=
  match run code with
  | .ok result =>
    [("success", .jbool (result.exit_code == 0)),
     ("stdout", optStr result.stdout),
     ("stderr", optStr result.stderr),
     ("exit_code", .jint result.exit_code),
     ("error", .jnull)]
  | .exn e =>
    [("success", .jbool false),
     ("error", .jstr e),
     ("exit_code", .jint (-1)),
     ("stdout", .jnull),
     ("stderr", .jnull)]

/-- The tool body of `execute_python_code` (lines 41-79): it awaits
`loop.run_in_executor(None, _run, code)`, which returns `_run`'s value
unchanged. -/
def execute_python_code (run : String → SessionOutcome) (code : String) : JDict :=
  _run run code

/-- A handle standing for one pool-manager object identity. -/
structure PoolHandle where
  id : Nat
deriving DecidableEq, Repr

/-- Observable effect of one `init_code_execution_pool` call: the returned
pool, the module-global `code_execution_pool` afterwards, how many pools
`create_pool_manager` built, and which shell commands were executed inside a
session. -/
structure InitResult where
  returned : PoolHandle
  globalPool : Option PoolHandle
  poolsCreated : Nat
  commandsRun : List String
deriving DecidableEq, Repr

/-- `init_code_execution_pool` in `src/tools/code_execution_tool.py`
(lines 11-33). `st` is the module-global `code_execution_pool` before the
call; `fresh` abstracts the pool `create_pool_manager` would build. -/
def init_code_execution_pool (st : Option PoolHandle) (fresh : PoolHandle)
    (libraries : Option (List String)) : InitResult :=
  match st with
  | some p => ⟨p, some p, 0, []⟩
  | none =>
    let cmds :=
      match libraries with
      | some libs =>
        if libs.length > 0 then ["pip install " ++ String.intercalate " " libs] else []
      | none => []
    ⟨fresh, some fresh, 1, cmds⟩

end CodeExecutionTool

namespace CodeExecution

/-- The inner `_run` of `execute_python_code` in
`src/tools/code_execution.py` (lines 65-82). Note the returned dictionaries
carry no `exit_code` key on either path. -/
def _run (run : String → SessionOutcome) (code : String) : JDict :=
  match run code with
  | .ok result =>
    [("success", .jbool (result.exit_code == 0)),
     ("error", .jnull),
     ("stdout", optStr result.stdout),
     ("stderr", optStr result.stderr)]
  | .exn e =>
    [("success", .jbool false),
     ("error", .jstr e),
     ("stdout", .jnull),
     ("stderr", .jnull)]

/-- The tool body of `execute_python_code` in `src/tools/code_execution.py`
(lines 48-85): awaits `_run` on the executor and returns its value. -/
def execute_python_code (run : String → SessionOutcome) (code : String) : JDict :=
  _run run code

/-- The inner `_install` of `install_python_libraries` in
`src/tools/code_execution.py` (lines 105-120). `exec1` abstracts
`session.execute_command`; it is applied to the `pip install` line the code
builds from the library list. -/
def _install (exec1 : String → SessionOutcome) (libraries : List String) : JDict :=
  match exec1 ("pip install " ++ String.intercalate " " libraries) with
  | .ok result =>
    [("success", .jbool (result.exit_code == 0)),
     ("error", .jnull),
     ("stderr", if result.exit_code != 0 then optStr result.stderr else .jnull)]
  | .exn e =>
    [("success", .jbool false),
     ("error", .jstr e),
     ("stderr", .jnull)]

/-- The tool body of `install_python_libraries` (lines 88-123): awaits
`_install` on the executor and returns its value. -/
def install_python_libraries (exec1 : String → SessionOutcome)
    (libraries : List String) : JDict :=
  _install exec1 libraries

/-- `init_code_execution_pool` in `src/tools/code_execution.py`
(lines 11-39): hard-codes `libraries = []` and
`skip_environment_setup = True`, so the install branch is never taken. -/
def init_code_execution_pool (st : Option CodeExecutionTool.PoolHandle)
    (fresh : CodeExecutionTool.PoolHandle) : CodeExecutionTool.InitResult :=
  match st with
  | some p => ⟨p, some p, 0, []⟩
  | none =>
    let libraries : List String := []
    let skip_environment_setup := true
    let cmds :=
      if libraries.length > 0 && !skip_environment_setup then
        ["pip install " ++ String.intercalate " " libraries]
      else []
    ⟨fresh, some fresh, 1, cmds⟩

end CodeExecution

/-- One streamed run item, as discriminated by the `async for` loop of
`run_agent` (`src/agent.py`, lines 74-102):
- `reasoning summary`: a `reasoning_item`; `summary` holds the `.text` of
  each entry of `raw_item.summary` in order.
- `toolCall isFunctionCall name arguments`: a `tool_call_item`;
  `isFunctionCall` is the `isinstance(raw_item, ResponseFunctionToolCall)`
  test, `arguments` the JSON object `orjson.loads` yields.
- `message content`: a `message_output_item`; `content` holds the `.text`
  of each entry of `raw_item.content` in order.
- `unknown itemType`: any event that is not a `run_item_stream_event`, or a
  run item of any other `item.type`. -/
inductive StreamEvent where
  | reasoning (summary : List String)
  | toolCall (isFunctionCall : Bool) (name : String) (arguments : List (String × String))
  | message (content : List String)
  | unknown (itemType : String)
deriving DecidableEq, Repr

/-- One dictionary appended to `outputs`: `{"type": ..., "content": ...}`. -/
structure Entry where
  type : String
  content : String
deriving DecidableEq, Repr

/-- Everything one `run_agent` turn produces: the `outputs` list returned,
plus the arguments of the three callbacks in invocation order. -/
structure TurnOutput where
  outputs : List Entry
  reasoningCalls : List String
  codeCalls : List String
  textCalls : List String
deriving DecidableEq, Repr

/-- A turn that produced nothing. -/
def TurnOutput.empty : TurnOutput := ⟨[], [], [], []⟩

/-- The accumulation `text += f"{part}\n\n"` over the parts in order,
starting from the empty string: every part, empty ones included, is
followed by two newlines. -/
def joinParts (parts : List String) : String :=
  parts.foldl (fun acc p => acc ++ p ++ "\n\n") ""

/-- `json_arguments.get(key)` on the parsed arguments object. -/
def getArg (arguments : List (String × String)) (key : String) : Option String :=
  match arguments with
  | [] => none
  | (k, v) :: rest => if k = key then some v else getArg rest key

/-- The classifier body of the loop in `run_agent` (src/agent.py lines
77-100), applied to one event: the entries appended and the callbacks
invoked for it. -/
def processEvent : StreamEvent → TurnOutput
  | .reasoning summary =>
    let t := if summary ≠ [] then joinParts summary else ""
    if t ≠ "" then ⟨[⟨"reasoning", t⟩], [t], [], []⟩ else .empty
  | .toolCall isFunctionCall name arguments =>
    if isFunctionCall && (name == "execute_python_code") then
      match getArg arguments "code" with
      | some code => if code ≠ "" then ⟨[⟨"code", code⟩], [], [code], []⟩ else .empty
      | none => .empty
    else .empty
  | .message content =>
    let t := if content ≠ [] then joinParts content else ""
    if t ≠ "" then ⟨[⟨"output", t⟩], [], [], [t]⟩ else .empty
  | .unknown _ => .empty

/-- One iteration of `run_agent`'s loop: what the turn has accumulated so
far, extended by the entries and callback invocations of one more event. -/
def stepEvent (acc : TurnOutput) (ev : StreamEvent) : TurnOutput :=
  let s := processEvent ev
  ⟨acc.outputs ++ s.outputs, acc.reasoningCalls ++ s.reasoningCalls,
   acc.codeCalls ++ s.codeCalls, acc.textCalls ++ s.textCalls⟩

/-- `run_agent`'s event loop (`src/agent.py`, lines 73-102): fold the
classifier over the arriving events, appending entries to `outputs` and
recording each callback invocation. -/
def run_agent (events : List StreamEvent) : TurnOutput :=
  events.foldl stepEvent .empty

/-! ### Theorems about the execution tools -/

/-- C1: for every result dictionary returned by `execute_python_code` — on
the normal path and on the exception path, in both source variants — the
`ExecutionResult` invariant holds: the `success` field is `true` iff the
exit code equals `0` and the `error` field is null. The
`code_execution.py` variant's dictionaries carry no `exit_code` key, so
there "the exit code equals 0" is read off the sandbox call itself
(`runExitZero`). -/
theorem C1_execution_result_invariant (run : String → SessionOutcome) (code : String) :
    (getField (CodeExecutionTool.execute_python_code run code) "success"
        = some (.jbool true)
      ↔ (getField (CodeExecutionTool.execute_python_code run code) "exit_code"
            = some (.jint 0)
          ∧ getField (CodeExecutionTool.execute_python_code run code) "error"
            = some .jnull))
    ∧ (getField (CodeExecution.execute_python_code run code) "success"
        = some (.jbool true)
      ↔ (runExitZero (run code) = true
          ∧ getField (CodeExecution.execute_python_code run code) "error"
            = some .jnull)) := by
  cases h : run code with
  | ok r =>
    simp [CodeExecutionTool.execute_python_code, CodeExecutionTool._run,
      CodeExecution.execute_python_code, CodeExecution._run, getField,
      runExitZero, h]
  | exn e =>
    simp [CodeExecutionTool.execute_python_code, CodeExecutionTool._run,
      CodeExecution.execute_python_code, CodeExecution._run, getField,
      runExitZero, h]

/-- C2: internal faults never escape the tool bodies. The embedding of each
tool is a total function into result dictionaries — mirroring the blanket
`except Exception` around every sandbox call — and whatever the sandbox
does, the result always carries a `success` field; when the sandbox call
raises with message `e`, each of the three tools returns `success = false`
together with the non-null `error = e`. -/
theorem C2_faults_captured (run : String → SessionOutcome) (code e : String)
    (libraries : List String) :
    (getField (CodeExecutionTool.execute_python_code run code) "success").isSome
    ∧ (getField (CodeExecution.execute_python_code run code) "success").isSome
    ∧ (getField (CodeExecution.install_python_libraries run libraries) "success").isSome
    ∧ getField (CodeExecutionTool.execute_python_code (fun _ => .exn e) code)
        "success" = some (.jbool false)
    ∧ getField (CodeExecutionTool.execute_python_code (fun _ => .exn e) code)
        "error" = some (.jstr e)
    ∧ getField (CodeExecution.execute_python_code (fun _ => .exn e) code)
        "success" = some (.jbool false)
    ∧ getField (CodeExecution.execute_python_code (fun _ => .exn e) code)
        "error" = some (.jstr e)
    ∧ getField (CodeExecution.install_python_libraries (fun _ => .exn e) libraries)
        "success" = some (.jbool false)
    ∧ getField (CodeExecution.install_python_libraries (fun _ => .exn e) libraries)
        "error" = some (.jstr e) := by
  refine ⟨?_, ?_, ?_, rfl, rfl, rfl, rfl, rfl, rfl⟩
  · cases h : run code <;>
      simp [CodeExecutionTool.execute_python_code, CodeExecutionTool._run, getField, h]
  · cases h : run code <;>
      simp [CodeExecution.execute_python_code, CodeExecution._run, getField, h]
  · cases h : run ("pip install " ++ String.intercalate " " libraries) <;>
      simp [CodeExecution.install_python_libraries, CodeExecution._install, getField, h]

/-- C6 counterexample: the `code_execution.py` variant of
`execute_python_code` returns a dictionary with no `exit_code` field at
all — shown here on the exception path at a concrete input (the normal
path omits it as well) — so not every result of `execute_python_code`
carries the five `ExecutionResult` fields. -/
theorem C6_counterexample :
    getField (CodeExecution.execute_python_code (fun _ => .exn "boom") "print(1)")
      "exit_code" = none := rfl

/-- C6 (amended): the `code_execution_tool.py` `execute_python_code` always
returns all five `ExecutionResult` fields with the stated types (`success`
boolean, `exit_code` integer, `stdout`/`stderr`/`error` string or null),
while the `code_execution.py` variant returns `success`, `error`, `stdout`
and `stderr` with those types but never an `exit_code` field. -/
theorem C6_result_fields_and_types (run : String → SessionOutcome) (code : String) :
    isBoolField (CodeExecutionTool.execute_python_code run code) "success" = true
    ∧ isStrOrNullField (CodeExecutionTool.execute_python_code run code) "stdout" = true
    ∧ isStrOrNullField (CodeExecutionTool.execute_python_code run code) "stderr" = true
    ∧ isIntField (CodeExecutionTool.execute_python_code run code) "exit_code" = true
    ∧ isStrOrNullField (CodeExecutionTool.execute_python_code run code) "error" = true
    ∧ isBoolField (CodeExecution.execute_python_code run code) "success" = true
    ∧ isStrOrNullField (CodeExecution.execute_python_code run code) "error" = true
    ∧ isStrOrNullField (CodeExecution.execute_python_code run code) "stdout" = true
    ∧ isStrOrNullField (CodeExecution.execute_python_code run code) "stderr" = true
    ∧ getField (CodeExecution.execute_python_code run code) "exit_code" = none := by
  cases h : run code with
  | ok r =>
    obtain ⟨ec, so, se⟩ := r
    cases so <;> cases se <;>
      simp [CodeExecutionTool.execute_python_code, CodeExecutionTool._run,
        CodeExecution.execute_python_code, CodeExecution._run, getField,
        optStr, isBoolField, isIntField, isStrOrNullField, h]
  | exn e =>
    simp [CodeExecutionTool.execute_python_code, CodeExecutionTool._run,
      CodeExecution.execute_python_code, CodeExecution._run, getField,
      optStr, isBoolField, isIntField, isStrOrNullField, h]

/-- C10: `init_code_execution_pool` is idempotent in both variants. The
first call (global still unset) creates one pool and stores it; any call
that finds the global already set returns that identical pool, creates no
pool and runs no install command, whatever `libraries` argument it
receives. -/
theorem C10_init_pool_idempotent (p fresh fresh2 : CodeExecutionTool.PoolHandle)
    (libs0 libraries : Option (List String)) :
    CodeExecutionTool.init_code_execution_pool
        (CodeExecutionTool.init_code_execution_pool none fresh libs0).globalPool
        fresh2 libraries
      = ⟨fresh, some fresh, 0, []⟩
    ∧ CodeExecutionTool.init_code_execution_pool (some p) fresh2 libraries
      = ⟨p, some p, 0, []⟩
    ∧ CodeExecution.init_code_execution_pool
        (CodeExecution.init_code_execution_pool none fresh).globalPool fresh2
      = ⟨fresh, some fresh, 0, []⟩
    ∧ CodeExecution.init_code_execution_pool (some p) fresh2
      = ⟨p, some p, 0, []⟩ :=
  ⟨rfl, rfl, rfl, rfl⟩

/-! ### Theorems about the event-stream classifier -/

/-- The accumulator of the `text += part + "\n\n"` fold never shrinks. -/
theorem length_le_foldl_append (parts : List String) (acc : String) :
    acc.length ≤ (parts.foldl (fun a p => a ++ p ++ "\n\n") acc).length := by
  induction parts generalizing acc with
  | nil => simp
  | cons p ps ih =>
    refine le_trans ?_ (ih (acc ++ p ++ "\n\n"))
    simp [String.length_append]
    omega

/-- The concatenation `joinParts` is empty exactly when there were no parts
at all: every part, even an empty one, contributes its two-newline
suffix. -/
theorem joinParts_eq_empty_iff (parts : List String) :
    joinParts parts = "" ↔ parts = [] := by
  constructor
  · intro h
    cases parts with
    | nil => rfl
    | cons p ps =>
      exfalso
      have h0 : (joinParts (p :: ps)).length = 0 := by rw [h]; rfl
      have h3 : joinParts (p :: ps)
          = ps.foldl (fun a q => a ++ q ++ "\n\n") ("" ++ p ++ "\n\n") := rfl
      have h2 := length_le_foldl_append ps ("" ++ p ++ "\n\n")
      have h4 : ("" ++ p ++ "\n\n").length = p.length + 2 := by
        simp [String.length_append]
        decide
      rw [h3] at h0
      omega
  · intro h
    rw [h]
    rfl

/-- Running the loop from any accumulator appends, event by event in
arrival order, the entries and callback records of each event. -/
theorem foldl_stepEvent (events : List StreamEvent) (acc : TurnOutput) :
    events.foldl stepEvent acc
      = ⟨acc.outputs ++ events.flatMap (fun e => (processEvent e).outputs),
         acc.reasoningCalls ++ events.flatMap (fun e => (processEvent e).reasoningCalls),
         acc.codeCalls ++ events.flatMap (fun e => (processEvent e).codeCalls),
         acc.textCalls ++ events.flatMap (fun e => (processEvent e).textCalls)⟩ := by
  induction events generalizing acc with
  | nil => simp
  | cons e es ih =>
    rw [List.foldl_cons, ih (stepEvent acc e)]
    simp [stepEvent]

/-- No single event ever contributes more than one transcript entry. -/
theorem processEvent_outputs_length_le (e : StreamEvent) :
    (processEvent e).outputs.length ≤ 1 := by
  cases e with
  | reasoning summary =>
    simp only [processEvent]
    split <;> (try split) <;> simp [TurnOutput.empty]
  | toolCall isFC name args =>
    simp only [processEvent]
    split
    · split
      · split <;> simp [TurnOutput.empty]
      · simp [TurnOutput.empty]
    · simp [TurnOutput.empty]
  | message content =>
    simp only [processEvent]
    split <;> (try split) <;> simp [TurnOutput.empty]
  | unknown s => simp [processEvent, TurnOutput.empty]

/-- C3 counterexample: on exactly the events `[Reasoning("a"),
ToolCall(execute_python_code, {code: "print(1)"}), Message("b")]` the
transcript is NOT `[{Reasoning,"a"}, {Code,"print(1)"}, {Output,"b"}]`:
the loop appends two newlines after every reasoning summary part and every
message content part, so the first and last contents differ from `"a"` and
`"b"`. -/
theorem C3_counterexample :
    (run_agent [.reasoning ["a"],
        .toolCall true "execute_python_code" [("code", "print(1)")],
        .message ["b"]]).outputs
      ≠ [⟨"reasoning", "a"⟩, ⟨"code", "print(1)"⟩, ⟨"output", "b"⟩] := by
  decide

/-- C3 (amended): on exactly those events the transcript is
`[{Reasoning,"a\n\n"}, {Code,"print(1)"}, {Output,"b\n\n"}]` in that order
— same kinds and order as claimed, but each reasoning/message part carries
an appended two-newline suffix — and the three callbacks receive exactly
those contents. -/
theorem C3_transcript_of_example :
    run_agent [.reasoning ["a"],
        .toolCall true "execute_python_code" [("code", "print(1)")],
        .message ["b"]]
      = ⟨[⟨"reasoning", "a\n\n"⟩, ⟨"code", "print(1)"⟩, ⟨"output", "b\n\n"⟩],
         ["a\n\n"], ["print(1)"], ["b\n\n"]⟩ := by
  decide

/-- C4 counterexample: a `Reasoning` event whose only summary part is the
empty string DOES append a transcript entry and DOES invoke the reasoning
callback (with content two newlines), because the loop appends `"\n\n"`
after every part rather than concatenating only non-empty parts. -/
theorem C4_counterexample :
    run_agent [.reasoning [""]] = ⟨[⟨"reasoning", "\n\n"⟩], ["\n\n"], [], []⟩
    ∧ (run_agent [.reasoning [""]]).outputs ≠ []
    ∧ (run_agent [.reasoning [""]]).reasoningCalls ≠ [] := by
  decide

/-- C4 (amended): for every `Reasoning` event the classifier concatenates
ALL summary parts in arrival order, appending two newlines after each
part, empty parts included. When the summary list is empty it invokes no
callback and appends no entry; when it is non-empty the concatenation is
necessarily non-empty (each part contributes at least its two-newline
suffix), so the reasoning callback is invoked exactly once with the
concatenation and exactly one `Reasoning` entry is appended. -/
theorem C4_reasoning_event (parts : List String) :
    run_agent [.reasoning parts]
      = (if parts = [] then .empty
         else ⟨[⟨"reasoning", joinParts parts⟩], [joinParts parts], [], []⟩)
    ∧ (joinParts parts = "" ↔ parts = []) := by
  refine ⟨?_, joinParts_eq_empty_iff parts⟩
  cases parts with
  | nil => rfl
  | cons p ps =>
    have hne : joinParts (p :: ps) ≠ "" := by
      rw [ne_eq, joinParts_eq_empty_iff]
      simp
    simp [run_agent, processEvent, stepEvent, hne, TurnOutput.empty]

/-- C5 counterexample: a ToolCall of the code-execution tool whose parsed
arguments carry no `code` field invokes no callback and appends no entry —
contrary to the claim that every `execute_python_code` call has its code
callback invoked and a `Code` entry appended. -/
theorem C5_counterexample :
    (run_agent [.toolCall true "execute_python_code" []]).outputs = []
    ∧ (run_agent [.toolCall true "execute_python_code" []]).codeCalls = [] := by
  decide

/-- C5 (amended): a ToolCall event is surfaced iff it is a function call
named `execute_python_code` whose parsed arguments carry a non-empty
`code` field; exactly then the code callback is invoked once with that
code and one `Code` entry is appended. Otherwise — wrong tool name (in
particular `install_python_libraries`), a non-function-call item, a
missing `code` field, or an empty one — no callback and no entry. -/
theorem C5_toolcall_surfacing (isFC : Bool) (name : String)
    (args : List (String × String)) :
    (∀ c : String,
      run_agent [.toolCall isFC name args] = ⟨[⟨"code", c⟩], [], [c], []⟩
        ↔ (isFC = true ∧ name = "execute_python_code"
            ∧ getArg args "code" = some c ∧ c ≠ ""))
    ∧ (run_agent [.toolCall isFC name args] = TurnOutput.empty
        ↔ ¬(isFC = true ∧ name = "execute_python_code"
            ∧ ∃ c, getArg args "code" = some c ∧ c ≠ ""))
    ∧ run_agent [.toolCall isFC "install_python_libraries" args]
        = TurnOutput.empty := by
  have hsingle : ∀ ev : StreamEvent, run_agent [ev] = processEvent ev := fun _ => rfl
  rcases isFC with _ | _
  · refine ⟨?_, ?_, ?_⟩
    · intro c
      simp [hsingle, processEvent, TurnOutput.empty]
    · simp [hsingle, processEvent, TurnOutput.empty]
    · simp [hsingle, processEvent, TurnOutput.empty]
  · by_cases hn : name = "execute_python_code"
    · subst hn
      refine ⟨?_, ?_, ?_⟩
      · intro c
        cases hg : getArg args "code" with
        | none => simp [hsingle, processEvent, hg, TurnOutput.empty]
        | some v =>
          by_cases hv : v = ""
          · subst hv
            simp [hsingle, processEvent, hg, TurnOutput.empty]
            exact fun h => h.symm
          · simp [hsingle, processEvent, hg, hv, TurnOutput.empty]
            intro h
            subst h
            exact hv
      · cases hg : getArg args "code" with
        | none => simp [hsingle, processEvent, hg, TurnOutput.empty]
        | some v =>
          by_cases hv : v = ""
          · subst hv
            simp [hsingle, processEvent, hg, TurnOutput.empty]
          · simp [hsingle, processEvent, hg, hv, TurnOutput.empty]
      · simp [hsingle, processEvent, TurnOutput.empty]
    · refine ⟨?_, ?_, ?_⟩
      · intro c
        simp [hsingle, processEvent, hn, TurnOutput.empty]
      · simp [hsingle, processEvent, hn, TurnOutput.empty]
      · simp [hsingle, processEvent, TurnOutput.empty]

/-- C7: within one turn the transcript is exactly the in-arrival-order
concatenation of each event's entries — so `TranscriptEntry` order matches
`StreamEvent` arrival order — each event contributes at most one entry,
and the transcript is append-only: consuming further events extends the
previous transcript as a prefix, never rewriting it. -/
theorem C7_transcript_order (events extra : List StreamEvent) :
    (run_agent events).outputs = events.flatMap (fun e => (processEvent e).outputs)
    ∧ (∀ e : StreamEvent, (processEvent e).outputs.length ≤ 1)
    ∧ (run_agent (events ++ extra)).outputs
        = (run_agent events).outputs
            ++ extra.flatMap (fun e => (processEvent e).outputs) := by
  refine ⟨?_, processEvent_outputs_length_le, ?_⟩
  · simp [run_agent, foldl_stepEvent, TurnOutput.empty]
  · simp [run_agent, foldl_stepEvent, TurnOutput.empty, List.flatMap_append]

/-- C9 counterexample: at a concrete unknown-variant event the classifier
neither rejects nor logs anything: it produces no entry, no callback and
no failure, and the turn's result is identical to the one in which the
event never arrived. -/
theorem C9_counterexample :
    run_agent [.unknown "raw_response_event"] = TurnOutput.empty
    ∧ run_agent [.unknown "raw_response_event", .message ["b"]]
        = run_agent [.message ["b"]] := by
  decide

/-- C9 (amended): the loop's `if`/`elif` chain has no final `else` and no
logging, so an event of unknown variant is silently skipped wherever it
occurs in the stream: the turn's entire result — entries and callbacks —
equals the one for the stream without that event. -/
theorem C9_unknown_ignored (s : String) (pre suf : List StreamEvent) :
    run_agent (pre ++ .unknown s :: suf) = run_agent (pre ++ suf) := by
  have hu : processEvent (.unknown s) = TurnOutput.empty := rfl
  unfold run_agent
  rw [foldl_stepEvent, foldl_stepEvent]
  simp [List.flatMap_append, hu, TurnOutput.empty]

end SimpleCodeAgent
